import Mathlib

/-!
Shallow embedding of the multi-transport MCP session and connection-lifecycle
manager of the azure-devops-mcp repository: the `AzureDevOpsRemoteServer`
class in the remote-server module (Express routes `/mcp`, `/sse`,
`/messages`, the `transports` map, `createMcpServer`, `stop`).

Modelling conventions:
* Session ids are opaque unique tokens produced by `randomUUID` (Streaming)
  or by the `SSEServerTransport` constructor (legacy SSE).  They are modelled
  as naturals drawn from a monotone counter `nextId`; the spec treats id
  collisions as negligible and not defended against, so fresh generation is
  modelled as genuinely fresh.
* Object identity of a transport and of a bound `McpServer` instance is
  modelled by the numeric id stamped on it at construction time.
* The JavaScript runtime is single-threaded and event-driven; each route
  handler and each close callback runs atomically between `await` points.
  One external stimulus (an HTTP request arriving, a stream close event
  firing) is one step of the state machine.
* Failure of the awaited operations inside a handler's `try` block
  (`createMcpServer`/`connect`/`handleRequest`/`handlePostMessage`) is an
  input of the step (`ioFails` / `connectFails`): the `catch` branch of the
  source then produces the 500 response.
-/

namespace ADOMcp

/-- Session identifier (an opaque unique token in the source, a `string`
UUID; modelled as a natural drawn from a fresh counter). -/
abbrev SessionId := Nat

/-- The two wire protocols a registry entry can belong to:
`StreamableHTTPServerTransport` (modern Streaming HTTP) and
`SSEServerTransport` (deprecated SSE).  The source distinguishes them by
`instanceof` checks on the stored transport object. -/
inductive TransportKind where
  | streamable
  | sse
deriving Repr, DecidableEq

/-- A value of the `transports` map of `AzureDevOpsRemoteServer`: the live
transport object.  `transportId` models the object identity of the transport,
`serverId` the object identity of the bound `McpServer` connected to it
(`none` while no server has been attached yet — the legacy-SSE registration
window). -/
structure TransportEntry where
  kind : TransportKind
  transportId : Nat
  serverId : Option Nat
deriving Repr, DecidableEq

/-- The `transports : Map<string, StreamableHTTPServerTransport | SSEServerTransport>`
field, modelled as an association list with JS-`Map` operations. -/
abbrev Registry := List (SessionId × TransportEntry)

/-- `Map.get` -/
def rget : Registry → SessionId → Option TransportEntry
  | [], _ => none
  | (k, v) :: rest, sid => if k = sid then some v else rget rest sid

/-- `Map.set`: replace the entry if the key is present, append otherwise. -/
def rset : Registry → SessionId → TransportEntry → Registry
  | [], sid, e => [(sid, e)]
  | (k, v) :: rest, sid, e =>
      if k = sid then (sid, e) :: rest else (k, v) :: rset rest sid e

/-- `Map.delete` -/
def rdelete (r : Registry) (sid : SessionId) : Registry :=
  r.filter (fun p => p.1 != sid)

/-- The whole mutable state of `AzureDevOpsRemoteServer` that the session
lifecycle touches: the `transports` map, the set of legacy SSE response
streams that are still open (`aliveStreams`, identified by the session id of
the transport that owns the stream), and the fresh-id counter. -/
structure ServerState where
  transports : Registry
  aliveStreams : List SessionId
  nextId : Nat
deriving Repr, DecidableEq

/-- HTTP methods the routes look at (`app.all('/mcp')` accepts any verb;
only `POST` is tested explicitly, for the initialization branch). -/
inductive Method where
  | get
  | post
  | delete
  | other
deriving Repr, DecidableEq

/-- Error message of the `/mcp` route when a session id resolves to an SSE
transport, and of the `/messages` route when it resolves to a Streaming
transport. -/
def msgWrongTransport : String :=
  "Bad Request: Session exists but uses a different transport protocol"

/-- Error message of the `/mcp` route's final reject branch. -/
def msgNoValidSession : String :=
  "Bad Request: No valid session ID provided or invalid initialization request"

/-- Error message of the `/messages` route when the query parameter is absent. -/
def msgMissingSessionId : String :=
  "Bad Request: sessionId query parameter is required"

/-- Error message of the `/messages` route when the id is not in the map. -/
def msgNoTransport : String :=
  "Bad Request: No transport found for sessionId"

/-- Error message of the `catch` branches. -/
def msgInternal : String := "Internal server error"

/-- Outcome of a route handler, as observable by the caller:
either the request was forwarded to a transport (`ok`, carrying the identity
of the handling transport and of its bound server), or a JSON-RPC error
envelope `{ error: { code, message }, id: null }` was sent with an HTTP
status (`err`), or a plain-text error was sent (`errText`, the legacy `/sse`
catch branch which uses `res.send` without a JSON body). -/
inductive HttpResponse where
  | ok (transportId : Nat) (serverId : Option Nat)
  | err (status : Nat) (code : Int) (message : String)
  | errText (status : Nat) (message : String)
deriving Repr, DecidableEq

/-- The JSON-RPC error code of a response, if it is a JSON error envelope. -/
def respErrCode : HttpResponse → Option Int
  | .err _ c _ => some c
  | _ => none

/-- The `/mcp` route handler (`app.all('/mcp', ...)`).

Mirrors the source's branch structure:
1. header session id present and in the map: if the stored transport is a
   `StreamableHTTPServerTransport`, forward to it (`transport.handleRequest`),
   else reject 400 code -32000 wrong-transport;
2. no session id, `POST`, body is an initialize request: build a new
   transport whose `onsessioninitialized` callback inserts it into the map
   under a freshly generated id, create a fresh `McpServer` via
   `createMcpServer`, connect, and answer the handshake.  `ioFails` models a
   throw before `onsessioninitialized` fires, answered 500 code -32603 by the
   `catch` with no insertion;
3. otherwise reject 400 code -32000.

A fresh session uses id `nextId` for the session id and the transport
identity, and `nextId + 1` for the identity of the bound server built by
`createMcpServer`. -/
def handleMcp (st : ServerState) (method : Method) (sessionId : Option SessionId)
    (isInitBody : Bool) (ioFails : Bool) : HttpResponse × ServerState :=
  match sessionId with
  | some sid =>
    match rget st.transports sid with
    | some e =>
      match e.kind with
      | .streamable =>
        if ioFails then (.err 500 (-32603) msgInternal, st)
        else (.ok e.transportId e.serverId, st)
      | .sse => (.err 400 (-32000) msgWrongTransport, st)
    | none => (.err 400 (-32000) msgNoValidSession, st)
  | none =>
    if method = Method.post ∧ isInitBody = true then
      if ioFails then (.err 500 (-32603) msgInternal, st)
      else
        let sid := st.nextId
        let entry : TransportEntry :=
          ⟨TransportKind.streamable, sid, some (sid + 1)⟩
        (.ok sid (some (sid + 1)),
         { st with transports := rset st.transports sid entry,
                   nextId := st.nextId + 2 })
    else (.err 400 (-32000) msgNoValidSession, st)

/-- A Streaming initialization request: `POST /mcp` with no session header
and an initialize body, all awaited operations succeeding. -/
def mcpInit (st : ServerState) : HttpResponse × ServerState :=
  handleMcp st Method.post none true false

/-- First half of the `/sse` route handler: `new SSEServerTransport(...)`
generates the session id in its constructor, and
`this.transports.set(transport.sessionId, transport)` registers it — before
any bound server exists, so the stored entry has `serverId = none`.  The
response stream for this session is now open (`aliveStreams`). -/
def sseRegister (st : ServerState) : SessionId × ServerState :=
  (st.nextId,
   { st with
       transports := rset st.transports st.nextId
         ⟨TransportKind.sse, st.nextId, none⟩,
       aliveStreams := st.nextId :: st.aliveStreams,
       nextId := st.nextId + 1 })

/-- Second half of the `/sse` route handler: `createMcpServer()` builds a
fresh bound server and `server.connect(transport)` attaches it to the
already-registered transport. -/
def sseAttach (st : ServerState) (sid : SessionId) : ServerState :=
  { st with
      transports := rset st.transports sid
        ⟨TransportKind.sse, sid, some st.nextId⟩,
      nextId := st.nextId + 1 }

/-- The `/sse` route handler (`app.get('/sse', ...)`): register, then create
and attach the bound server.  `connectFails` models
`createMcpServer`/`connect` throwing: the `catch` answers 500 plain text,
and - as in the source - does not remove the already-registered entry. -/
def handleSse (st : ServerState) (connectFails : Bool) :
    HttpResponse × ServerState :=
  let reg := sseRegister st
  if connectFails then (.errText 500 msgInternal, reg.2)
  else (.ok reg.1 none, sseAttach reg.2 reg.1)

/-- The `/messages` route handler (`app.post('/messages', ...)`): missing
`sessionId` query parameter → 400 code -32000; id not in the map → 400 code -32000
"No transport found"; id mapped to a non-SSE transport → 400 code -32000 wrong
transport; otherwise `handlePostMessage` on the found transport (`ioFails`
models it throwing, answered 500 code -32603 by the `catch`). -/
def handleMessages (st : ServerState) (sessionId : Option SessionId)
    (ioFails : Bool) : HttpResponse × ServerState :=
  match sessionId with
  | none => (.err 400 (-32000) msgMissingSessionId, st)
  | some sid =>
    match rget st.transports sid with
    | none => (.err 400 (-32000) msgNoTransport, st)
    | some e =>
      match e.kind with
      | .streamable => (.err 400 (-32000) msgWrongTransport, st)
      | .sse =>
        if ioFails then (.err 500 (-32603) msgInternal, st)
        else (.ok e.transportId e.serverId, st)

/-- The `transport.onclose` callback installed on a Streaming transport:
`if (sid && this.transports.has(sid)) this.transports.delete(sid)`.  The
callback exists only for Streaming transports, and ids are never reused, so
it can fire only while `sid` maps to a Streaming entry (or after it is
already gone). -/
def streamableOnClose (st : ServerState) (sid : SessionId) : ServerState :=
  match rget st.transports sid with
  | some e =>
    match e.kind with
    | .streamable => { st with transports := rdelete st.transports sid }
    | .sse => st
  | none => st

/-- The `res.on("close", ...)` callback installed on a legacy SSE response
stream: `this.transports.delete(transport.sessionId)`.  The stream resource
is released by the same event that runs this synchronous callback, so one
atomic step of the single-threaded event loop removes the registry entry and
the live stream together.  The callback exists only for SSE transports. -/
def sseOnResClose (st : ServerState) (sid : SessionId) : ServerState :=
  match rget st.transports sid with
  | some e =>
    match e.kind with
    | .sse =>
      { st with transports := rdelete st.transports sid,
                aliveStreams := st.aliveStreams.filter (fun x => x != sid) }
    | .streamable => st
  | none => st

/-- One external stimulus processed by the event loop. -/
inductive Event where
  | mcpRequest (method : Method) (sessionId : Option SessionId)
      (isInitBody : Bool) (ioFails : Bool)
  | sseConnect (connectFails : Bool)
  | messagesPost (sessionId : Option SessionId) (ioFails : Bool)
  | streamableClosed (sid : SessionId)
  | sseStreamClosed (sid : SessionId)
deriving Repr, DecidableEq

/-- The state transition of one event. -/
def stepEvent (st : ServerState) : Event → ServerState
  | .mcpRequest m sid i f => (handleMcp st m sid i f).2
  | .sseConnect f => (handleSse st f).2
  | .messagesPost sid f => (handleMessages st sid f).2
  | .streamableClosed sid => streamableOnClose st sid
  | .sseStreamClosed sid => sseOnResClose st sid

/-- Run a sequence of events. -/
def runEvents (st : ServerState) (evs : List Event) : ServerState :=
  evs.foldl stepEvent st

/-- `o` is `none` or holds a value below `n`. -/
def optBelow : Option Nat → Nat → Prop
  | none, _ => True
  | some a, n => a < n

instance : (o : Option Nat) → (n : Nat) → Decidable (optBelow o n)
  | none, _ => isTrue trivial
  | some a, n => Nat.decLt a n

/-- The values of `o` and `p`, when both are present, differ. -/
def optDisjoint : Option Nat → Option Nat → Prop
  | some a, some b => a ≠ b
  | some _, none => True
  | none, _ => True

instance : (o p : Option Nat) → Decidable (optDisjoint o p)
  | some a, some b => inferInstanceAs (Decidable (a ≠ b))
  | some _, none => isTrue trivial
  | none, none => isTrue trivial
  | none, some _ => isTrue trivial

/-- Well-formedness of the server state, established at construction
(`transports` starts empty) and preserved by every event: every stored id
and bound-server identity is below the fresh counter; bound-server
identities of distinct sessions are distinct; every registered SSE session's
response stream is still open. -/
def StateWF (st : ServerState) : Prop :=
  (∀ p ∈ st.transports, p.1 < st.nextId ∧ optBelow p.2.serverId st.nextId) ∧
  (∀ p ∈ st.transports, ∀ q ∈ st.transports, p.1 ≠ q.1 →
    optDisjoint p.2.serverId q.2.serverId) ∧
  (∀ p ∈ st.transports, p.2.kind = TransportKind.sse →
    p.1 ∈ st.aliveStreams)

instance (st : ServerState) : Decidable (StateWF st) := by
  unfold StateWF; infer_instance

/-- The loop body of `AzureDevOpsRemoteServer.stop`: iterate the entries of
the `transports` map; each `await transport.close()` may throw (`fails`),
the error is caught, logged and swallowed, and the loop continues with the
next entry.  Returns the ids for which a close was attempted and the ids
whose close threw. -/
def closeLoop : List (SessionId × TransportEntry) → (SessionId → Bool) →
    List SessionId × List SessionId
  | [], _ => ([], [])
  | (sid, _) :: rest, fails =>
    let r := closeLoop rest fails
    (sid :: r.1, if fails sid then sid :: r.2 else r.2)

/-- `AzureDevOpsRemoteServer.stop`: close every transport (errors logged and
swallowed per entry), then `this.transports.clear()`.  Closing every
transport ends every SSE stream, so no stream stays alive. -/
def stopServer (st : ServerState) (fails : SessionId → Bool) :
    ServerState × List SessionId × List SessionId :=
  let r := closeLoop st.transports fails
  ({ st with transports := [], aliveStreams := [] }, r.1, r.2)

/-- The server options (`RemoteServerOptions`). -/
structure RemoteServerOptions where
  orgName : String
  tenantId : Option String := none
  port : Option Nat := none
  allowedOrigins : Option (List String) := none
  allowedHosts : Option (List String) := none

/-- The `enableDnsRebindingProtection` flag the `/sse` route passes to the
`SSEServerTransport` constructor:
`!!this.options.allowedHosts || !!this.options.allowedOrigins` (a JS array,
even an empty one, is truthy; `undefined` is falsy). -/
def enableDnsRebindingProtection (o : RemoteServerOptions) : Bool :=
  o.allowedHosts.isSome || o.allowedOrigins.isSome

/-- Modelled from the spec: the host/origin validation performed by the
external SDK's `SSEServerTransport` (not code of this repository): when
DNS-rebinding protection is disabled the transport performs no host or
origin check and accepts any caller; when enabled, a configured allow-list
must contain the request's value. -/
def sseAcceptsRequest (o : RemoteServerOptions) (host origin : String) : Bool :=
  if enableDnsRebindingProtection o then
    (match o.allowedHosts with
     | some hs => hs.contains host
     | none => true) &&
    (match o.allowedOrigins with
     | some os => os.contains origin
     | none => true)
  else true

/-! Registry lemmas: how `rget`, `rset`, `rdelete` interact. -/

theorem rget_rset_self (r : Registry) (k : SessionId) (e : TransportEntry) :
    rget (rset r k e) k = some e := by
  induction r with
  | nil => simp [rset, rget]
  | cons hd tl ih =>
    obtain ⟨k0, v0⟩ := hd
    by_cases h : k0 = k
    · simp [rset, h, rget]
    · simp [rset, h, rget, ih]

theorem rget_rset_ne (r : Registry) (k k2 : SessionId) (e : TransportEntry)
    (h : k2 ≠ k) : rget (rset r k e) k2 = rget r k2 := by
  induction r with
  | nil => simp [rset, rget, Ne.symm h]
  | cons hd tl ih =>
    obtain ⟨k0, v0⟩ := hd
    by_cases h0 : k0 = k
    · subst h0
      simp [rset, rget, Ne.symm h]
    · simp only [rset, if_neg h0, rget]
      by_cases h2 : k0 = k2
      · simp [h2]
      · simp [h2, ih]

theorem mem_rset (r : Registry) (k : SessionId) (e : TransportEntry)
    (p : SessionId × TransportEntry) (hp : p ∈ rset r k e) :
    p = (k, e) ∨ p ∈ r := by
  induction r with
  | nil => simp [rset] at hp; simp [hp]
  | cons hd tl ih =>
    obtain ⟨k0, v0⟩ := hd
    by_cases h0 : k0 = k
    · simp only [rset, if_pos h0] at hp
      rcases List.mem_cons.mp hp with h | h
      · exact Or.inl h
      · exact Or.inr (List.mem_cons_of_mem _ h)
    · simp only [rset, if_neg h0] at hp
      rcases List.mem_cons.mp hp with h | h
      · exact Or.inr (h ▸ List.mem_cons_self _ _)
      · rcases ih h with h1 | h1
        · exact Or.inl h1
        · exact Or.inr (List.mem_cons_of_mem _ h1)

theorem rget_eq_none (r : Registry) (k : SessionId)
    (h : ∀ p ∈ r, p.1 ≠ k) : rget r k = none := by
  induction r with
  | nil => rfl
  | cons hd tl ih =>
    obtain ⟨k0, v0⟩ := hd
    have hk0 : k0 ≠ k := h (k0, v0) (List.mem_cons_self _ _)
    simp only [rget, if_neg hk0]
    exact ih fun p hp => h p (List.mem_cons_of_mem _ hp)

theorem mem_of_rget (r : Registry) (k : SessionId) (e : TransportEntry)
    (h : rget r k = some e) : (k, e) ∈ r := by
  induction r with
  | nil => simp [rget] at h
  | cons hd tl ih =>
    obtain ⟨k0, v0⟩ := hd
    by_cases h0 : k0 = k
    · subst h0
      simp [rget] at h
      subst h
      exact List.mem_cons_self _ _
    · simp only [rget, if_neg h0] at h
      exact List.mem_cons_of_mem _ (ih h)

theorem mem_rdelete (r : Registry) (k : SessionId)
    (p : SessionId × TransportEntry) (hp : p ∈ rdelete r k) :
    p ∈ r ∧ p.1 ≠ k := by
  have h := List.mem_filter.mp hp
  exact ⟨h.1, by simpa using h.2⟩

theorem rget_rdelete_self (r : Registry) (k : SessionId) :
    rget (rdelete r k) k = none :=
  rget_eq_none _ _ fun p hp => (mem_rdelete r k p hp).2

theorem rget_rdelete_ne (r : Registry) (k k2 : SessionId) (h : k2 ≠ k) :
    rget (rdelete r k) k2 = rget r k2 := by
  induction r with
  | nil => rfl
  | cons hd tl ih =>
    obtain ⟨k0, v0⟩ := hd
    by_cases h0 : k0 = k
    · subst h0
      have : (k0 != k0) = false := by simp
      simp only [rdelete, List.filter_cons, this, if_neg, Bool.false_eq_true,
        ite_false] at *
      rw [ih]
      simp [rget, Ne.symm h]
    · have : (k0 != k) = true := by simpa using h0
      simp only [rdelete, List.filter_cons, this, if_pos, ite_true] at *
      by_cases h2 : k0 = k2
      · simp [rget, h2]
      · simp only [rget, if_neg h2]
        exact ih

theorem rset_rset_same (r : Registry) (k : SessionId) (e0 e1 : TransportEntry) :
    rset (rset r k e0) k e1 = rset r k e1 := by
  induction r with
  | nil => simp [rset]
  | cons hd tl ih =>
    obtain ⟨k0, v0⟩ := hd
    by_cases h0 : k0 = k
    · simp [rset, h0]
    · simp [rset, h0, ih]

/-! Arithmetic helpers for `optBelow` and `optDisjoint`. -/

theorem optBelow_mono {o : Option Nat} {m n : Nat} (h : optBelow o m)
    (hmn : m ≤ n) : optBelow o n := by
  cases o with
  | none => trivial
  | some a =>
    simp only [optBelow] at *
    omega

theorem optDisjoint_of_below {a : Nat} {o : Option Nat} {n : Nat}
    (h : optBelow o n) (ha : n ≤ a) : optDisjoint (some a) o := by
  cases o with
  | none => trivial
  | some b =>
    simp only [optBelow] at h
    simp only [optDisjoint]
    omega

theorem optDisjoint_symm {o p : Option Nat} (h : optDisjoint o p) :
    optDisjoint p o := by
  cases o with
  | none =>
    cases p with
    | none => trivial
    | some b => trivial
  | some a =>
    cases p with
    | none => trivial
    | some b => exact Ne.symm h

/-! Facts derived from `StateWF`. -/

theorem rget_some_lt {st : ServerState} {sid : SessionId} {e : TransportEntry}
    (hwf : StateWF st) (h : rget st.transports sid = some e) :
    sid < st.nextId :=
  (hwf.1 (sid, e) (mem_of_rget _ _ _ h)).1

theorem rget_nextId_eq_none {st : ServerState} (hwf : StateWF st) :
    rget st.transports st.nextId = none :=
  rget_eq_none _ _ fun p hp => Nat.ne_of_lt (hwf.1 p hp).1

/-! State characterizations of the handlers. -/

theorem handleMessages_state (st : ServerState) (sido : Option SessionId)
    (f : Bool) : (handleMessages st sido f).2 = st := by
  cases sido with
  | none => rfl
  | some s =>
    unfold handleMessages
    cases hg : rget st.transports s with
    | none => simp [hg]
    | some e => cases hk : e.kind <;> cases f <;> simp [hg, hk]

/-! Preservation of `StateWF` by every event. -/

theorem wf_insert_streamable (st : ServerState) (hwf : StateWF st) :
    StateWF { st with
      transports := rset st.transports st.nextId
        ⟨TransportKind.streamable, st.nextId, some (st.nextId + 1)⟩,
      nextId := st.nextId + 2 } := by
  obtain ⟨hb, hd, ha⟩ := hwf
  refine ⟨?_, ?_, ?_⟩
  · intro p hp
    rcases mem_rset _ _ _ _ hp with h | h
    · subst h
      refine ⟨?_, ?_⟩
      · show st.nextId < st.nextId + 2
        omega
      · show st.nextId + 1 < st.nextId + 2
        omega
    · obtain ⟨h1, h2⟩ := hb p h
      exact ⟨Nat.lt_add_right 2 h1, optBelow_mono h2 (Nat.le_add_right _ 2)⟩
  · intro p hp q hq hne
    rcases mem_rset _ _ _ _ hp with h | h <;> rcases mem_rset _ _ _ _ hq with h2 | h2
    · subst h; subst h2; exact absurd rfl hne
    · subst h
      exact optDisjoint_of_below (hb q h2).2 (Nat.le_add_right _ 1)
    · subst h2
      exact optDisjoint_symm (optDisjoint_of_below (hb p h).2 (Nat.le_add_right _ 1))
    · exact hd p h q h2 hne
  · intro p hp hk
    rcases mem_rset _ _ _ _ hp with h | h
    · subst h; simp at hk
    · exact ha p h hk

theorem wf_sseRegister (st : ServerState) (hwf : StateWF st) :
    StateWF (sseRegister st).2 := by
  obtain ⟨hb, hd, ha⟩ := hwf
  refine ⟨?_, ?_, ?_⟩
  · intro p hp
    rcases mem_rset _ _ _ _ hp with h | h
    · subst h
      refine ⟨?_, trivial⟩
      show st.nextId < st.nextId + 1
      omega
    · obtain ⟨h1, h2⟩ := hb p h
      exact ⟨Nat.lt_add_right 1 h1, optBelow_mono h2 (Nat.le_add_right _ 1)⟩
  · intro p hp q hq hne
    rcases mem_rset _ _ _ _ hp with h | h <;> rcases mem_rset _ _ _ _ hq with h2 | h2
    · subst h; subst h2; exact absurd rfl hne
    · subst h; trivial
    · subst h2; exact optDisjoint_symm (p := p.2.serverId) trivial
    · exact hd p h q h2 hne
  · intro p hp hk
    rcases mem_rset _ _ _ _ hp with h | h
    · subst h; exact List.mem_cons_self _ _
    · exact List.mem_cons_of_mem _ (ha p h hk)

theorem wf_sseFull (st : ServerState) (hwf : StateWF st) :
    StateWF (sseAttach (sseRegister st).2 (sseRegister st).1) := by
  obtain ⟨hb, hd, ha⟩ := hwf
  unfold sseRegister sseAttach
  simp only [rset_rset_same]
  refine ⟨?_, ?_, ?_⟩
  · intro p hp
    rcases mem_rset _ _ _ _ hp with h | h
    · subst h
      refine ⟨?_, ?_⟩
      · show st.nextId < st.nextId + 1 + 1
        omega
      · show st.nextId + 1 < st.nextId + 1 + 1
        omega
    · obtain ⟨h1, h2⟩ := hb p h
      exact ⟨Nat.lt_add_right 2 h1, optBelow_mono h2 (Nat.le_add_right _ 2)⟩
  · intro p hp q hq hne
    rcases mem_rset _ _ _ _ hp with h | h <;> rcases mem_rset _ _ _ _ hq with h2 | h2
    · subst h; subst h2; exact absurd rfl hne
    · subst h
      exact optDisjoint_of_below (hb q h2).2 (Nat.le_add_right _ 1)
    · subst h2
      exact optDisjoint_symm (optDisjoint_of_below (hb p h).2 (Nat.le_add_right _ 1))
    · exact hd p h q h2 hne
  · intro p hp hk
    rcases mem_rset _ _ _ _ hp with h | h
    · subst h; exact List.mem_cons_self _ _
    · exact List.mem_cons_of_mem _ (ha p h hk)

theorem wf_rdelete (st : ServerState) (sid : SessionId) (hwf : StateWF st) :
    StateWF { st with transports := rdelete st.transports sid } := by
  obtain ⟨hb, hd, ha⟩ := hwf
  exact ⟨fun p hp => hb p (mem_rdelete _ _ _ hp).1,
         fun p hp q hq hne =>
           hd p (mem_rdelete _ _ _ hp).1 q (mem_rdelete _ _ _ hq).1 hne,
         fun p hp hk => ha p (mem_rdelete _ _ _ hp).1 hk⟩

theorem wf_sseDelete (st : ServerState) (sid : SessionId) (hwf : StateWF st) :
    StateWF { st with
      transports := rdelete st.transports sid,
      aliveStreams := st.aliveStreams.filter (fun x => x != sid) } := by
  obtain ⟨hb, hd, ha⟩ := hwf
  refine ⟨fun p hp => hb p (mem_rdelete _ _ _ hp).1,
          fun p hp q hq hne =>
            hd p (mem_rdelete _ _ _ hp).1 q (mem_rdelete _ _ _ hq).1 hne,
          fun p hp hk => ?_⟩
  obtain ⟨hmem, hne⟩ := mem_rdelete _ _ _ hp
  exact List.mem_filter.mpr ⟨ha p hmem hk, by simpa using hne⟩

theorem wf_handleMcp (st : ServerState) (m : Method) (sido : Option SessionId)
    (i f : Bool) (hwf : StateWF st) : StateWF (handleMcp st m sido i f).2 := by
  cases sido with
  | some s =>
    unfold handleMcp
    cases hg : rget st.transports s with
    | none => simpa [hg] using hwf
    | some e => cases hk : e.kind <;> cases f <;> simpa [hg, hk] using hwf
  | none =>
    unfold handleMcp
    by_cases hc : m = Method.post ∧ i = true
    · cases f with
      | true => simpa [hc] using hwf
      | false =>
        simp only [hc, if_true, if_pos, Bool.false_eq_true, ite_false]
        exact wf_insert_streamable st hwf
    · simpa [hc] using hwf

theorem wf_stepEvent (st : ServerState) (ev : Event) (hwf : StateWF st) :
    StateWF (stepEvent st ev) := by
  cases ev with
  | mcpRequest m sido i f => exact wf_handleMcp st m sido i f hwf
  | sseConnect f =>
    cases f with
    | true => exact wf_sseRegister st hwf
    | false => exact wf_sseFull st hwf
  | messagesPost sido f =>
    show StateWF (handleMessages st sido f).2
    rw [handleMessages_state]
    exact hwf
  | streamableClosed sid =>
    show StateWF (streamableOnClose st sid)
    unfold streamableOnClose
    cases hg : rget st.transports sid with
    | none => simpa [hg] using hwf
    | some e =>
      obtain ⟨ek, etid, esrv⟩ := e
      cases ek with
      | streamable => simpa [hg] using wf_rdelete st sid hwf
      | sse => simpa [hg] using hwf
  | sseStreamClosed sid =>
    show StateWF (sseOnResClose st sid)
    unfold sseOnResClose
    cases hg : rget st.transports sid with
    | none => simpa [hg] using hwf
    | some e =>
      obtain ⟨ek, etid, esrv⟩ := e
      cases ek with
      | streamable => simpa [hg] using hwf
      | sse => simpa [hg] using wf_sseDelete st sid hwf

theorem nextId_le_stepEvent (st : ServerState) (ev : Event) :
    st.nextId ≤ (stepEvent st ev).nextId := by
  cases ev with
  | mcpRequest m sido i f =>
    show st.nextId ≤ (handleMcp st m sido i f).2.nextId
    unfold handleMcp
    cases sido with
    | some s =>
      cases hg : rget st.transports s with
      | none => simp [hg]
      | some e =>
        obtain ⟨ek, etid, esrv⟩ := e
        cases ek <;> cases f <;> simp [hg]
    | none =>
      by_cases hc : m = Method.post ∧ i = true
      · cases f with
        | true => simp [hc]
        | false =>
          rw [if_pos hc]
          show st.nextId ≤ st.nextId + 2
          omega
      · simp [hc]
  | sseConnect f =>
    show st.nextId ≤ (handleSse st f).2.nextId
    cases f with
    | true =>
      show st.nextId ≤ st.nextId + 1
      omega
    | false =>
      show st.nextId ≤ st.nextId + 1 + 1
      omega
  | messagesPost sido f =>
    show st.nextId ≤ (handleMessages st sido f).2.nextId
    rw [handleMessages_state]
  | streamableClosed sid =>
    show st.nextId ≤ (streamableOnClose st sid).nextId
    unfold streamableOnClose
    cases hg : rget st.transports sid with
    | none => simp [hg]
    | some e =>
      obtain ⟨ek, etid, esrv⟩ := e
      cases ek <;> simp [hg]
  | sseStreamClosed sid =>
    show st.nextId ≤ (sseOnResClose st sid).nextId
    unfold sseOnResClose
    cases hg : rget st.transports sid with
    | none => simp [hg]
    | some e =>
      obtain ⟨ek, etid, esrv⟩ := e
      cases ek <;> simp [hg]

/-! Branch characterizations of the route handlers. -/

theorem handleMcp_some_state (st : ServerState) (m : Method) (s : SessionId)
    (i f : Bool) : (handleMcp st m (some s) i f).2 = st := by
  unfold handleMcp
  cases hg : rget st.transports s with
  | none => simp [hg]
  | some e =>
    obtain ⟨ek, etid, esrv⟩ := e
    cases ek <;> cases f <;> simp [hg]

theorem handleMcp_found_streamable (st : ServerState) (m : Method)
    (s : SessionId) (i : Bool) (e : TransportEntry)
    (hg : rget st.transports s = some e)
    (hk : e.kind = TransportKind.streamable) :
    handleMcp st m (some s) i false = (.ok e.transportId e.serverId, st) := by
  obtain ⟨ek, etid, esrv⟩ := e
  change ek = TransportKind.streamable at hk
  subst hk
  simp [handleMcp, hg]

theorem handleMcp_found_sse (st : ServerState) (m : Method) (s : SessionId)
    (i f : Bool) (e : TransportEntry) (hg : rget st.transports s = some e)
    (hk : e.kind = TransportKind.sse) :
    handleMcp st m (some s) i f = (.err 400 (-32000) msgWrongTransport, st) := by
  obtain ⟨ek, etid, esrv⟩ := e
  change ek = TransportKind.sse at hk
  subst hk
  simp [handleMcp, hg]

theorem handleMcp_not_found (st : ServerState) (m : Method) (s : SessionId)
    (i f : Bool) (hg : rget st.transports s = none) :
    handleMcp st m (some s) i f = (.err 400 (-32000) msgNoValidSession, st) := by
  simp [handleMcp, hg]

theorem handleMcp_none_reject (st : ServerState) (m : Method) (i f : Bool)
    (hc : ¬(m = Method.post ∧ i = true)) :
    handleMcp st m none i f = (.err 400 (-32000) msgNoValidSession, st) := by
  unfold handleMcp
  rw [if_neg hc]

theorem handleMcp_init_fail (st : ServerState) (m : Method) (i : Bool)
    (hc : m = Method.post ∧ i = true) :
    handleMcp st m none i true = (.err 500 (-32603) msgInternal, st) := by
  unfold handleMcp
  rw [if_pos hc, if_pos rfl]

theorem handleMcp_init_success (st : ServerState) (m : Method) (i : Bool)
    (hc : m = Method.post ∧ i = true) :
    handleMcp st m none i false =
      (.ok st.nextId (some (st.nextId + 1)),
       { st with
         transports := rset st.transports st.nextId
           ⟨TransportKind.streamable, st.nextId, some (st.nextId + 1)⟩,
         nextId := st.nextId + 2 }) := by
  unfold handleMcp
  rw [if_pos hc, if_neg (by simp)]

theorem handleMessages_not_found (st : ServerState) (s : SessionId) (f : Bool)
    (hg : rget st.transports s = none) :
    handleMessages st (some s) f = (.err 400 (-32000) msgNoTransport, st) := by
  simp [handleMessages, hg]

theorem handleMessages_found_streamable (st : ServerState) (s : SessionId)
    (f : Bool) (e : TransportEntry) (hg : rget st.transports s = some e)
    (hk : e.kind = TransportKind.streamable) :
    handleMessages st (some s) f
      = (.err 400 (-32000) msgWrongTransport, st) := by
  obtain ⟨ek, etid, esrv⟩ := e
  change ek = TransportKind.streamable at hk
  subst hk
  simp [handleMessages, hg]

theorem handleMessages_found_sse (st : ServerState) (s : SessionId)
    (e : TransportEntry) (hg : rget st.transports s = some e)
    (hk : e.kind = TransportKind.sse) :
    handleMessages st (some s) false = (.ok e.transportId e.serverId, st) := by
  obtain ⟨ek, etid, esrv⟩ := e
  change ek = TransportKind.sse at hk
  subst hk
  simp [handleMessages, hg]

theorem handleMessages_ok_sse (st : ServerState) (sido : Option SessionId)
    (f : Bool) (t : Nat) (sv : Option Nat)
    (h : (handleMessages st sido f).1 = .ok t sv) :
    ∃ s e, sido = some s ∧ rget st.transports s = some e ∧
      e.kind = TransportKind.sse := by
  cases sido with
  | none => simp [handleMessages] at h
  | some s =>
    cases hg : rget st.transports s with
    | none => simp [handleMessages, hg] at h
    | some e =>
      obtain ⟨ek, etid, esrv⟩ := e
      cases ek with
      | streamable => simp [handleMessages, hg] at h
      | sse => exact ⟨s, ⟨TransportKind.sse, etid, esrv⟩, rfl, hg, rfl⟩

/-! Single-step and multi-step registry preservation. -/

theorem rget_stepEvent_preserved (st : ServerState) (ev : Event)
    (sid : SessionId) (e : TransportEntry) (hwf : StateWF st)
    (hg : rget st.transports sid = some e) :
    rget (stepEvent st ev).transports sid = some e ∨
    rget (stepEvent st ev).transports sid = none := by
  have hlt : sid < st.nextId := rget_some_lt hwf hg
  cases ev with
  | mcpRequest m sido i f =>
    show rget (handleMcp st m sido i f).2.transports sid = some e ∨
      rget (handleMcp st m sido i f).2.transports sid = none
    cases sido with
    | some s =>
      rw [handleMcp_some_state]
      exact Or.inl hg
    | none =>
      by_cases hc : m = Method.post ∧ i = true
      · cases f with
        | true =>
          rw [handleMcp_init_fail st m i hc]
          exact Or.inl hg
        | false =>
          rw [handleMcp_init_success st m i hc]
          left
          show rget (rset st.transports st.nextId
            ⟨TransportKind.streamable, st.nextId, some (st.nextId + 1)⟩)
            sid = some e
          rw [rget_rset_ne _ _ _ _ (Nat.ne_of_lt hlt)]
          exact hg
      · rw [handleMcp_none_reject st m i f hc]
        exact Or.inl hg
  | sseConnect f =>
    show rget (handleSse st f).2.transports sid = some e ∨
      rget (handleSse st f).2.transports sid = none
    cases f with
    | true =>
      left
      show rget (rset st.transports st.nextId
        ⟨TransportKind.sse, st.nextId, none⟩) sid = some e
      rw [rget_rset_ne _ _ _ _ (Nat.ne_of_lt hlt)]
      exact hg
    | false =>
      left
      show rget (rset (rset st.transports st.nextId
        ⟨TransportKind.sse, st.nextId, none⟩) st.nextId
        ⟨TransportKind.sse, st.nextId, some (st.nextId + 1)⟩) sid = some e
      rw [rset_rset_same, rget_rset_ne _ _ _ _ (Nat.ne_of_lt hlt)]
      exact hg
  | messagesPost sido f =>
    show rget (handleMessages st sido f).2.transports sid = some e ∨
      rget (handleMessages st sido f).2.transports sid = none
    rw [handleMessages_state]
    exact Or.inl hg
  | streamableClosed s =>
    show rget (streamableOnClose st s).transports sid = some e ∨
      rget (streamableOnClose st s).transports sid = none
    unfold streamableOnClose
    cases hg2 : rget st.transports s with
    | none => exact Or.inl hg
    | some e2 =>
      obtain ⟨ek, etid, esrv⟩ := e2
      cases ek with
      | sse => exact Or.inl hg
      | streamable =>
        by_cases hs : sid = s
        · subst hs
          right
          show rget (rdelete st.transports sid) sid = none
          exact rget_rdelete_self _ _
        · left
          show rget (rdelete st.transports s) sid = some e
          rw [rget_rdelete_ne _ _ _ hs]
          exact hg
  | sseStreamClosed s =>
    show rget (sseOnResClose st s).transports sid = some e ∨
      rget (sseOnResClose st s).transports sid = none
    unfold sseOnResClose
    cases hg2 : rget st.transports s with
    | none => exact Or.inl hg
    | some e2 =>
      obtain ⟨ek, etid, esrv⟩ := e2
      cases ek with
      | streamable => exact Or.inl hg
      | sse =>
        by_cases hs : sid = s
        · subst hs
          right
          show rget (rdelete st.transports sid) sid = none
          exact rget_rdelete_self _ _
        · left
          show rget (rdelete st.transports s) sid = some e
          rw [rget_rdelete_ne _ _ _ hs]
          exact hg

theorem rget_stepEvent_none (st : ServerState) (ev : Event) (sid : SessionId)
    (hlt : sid < st.nextId) (hg : rget st.transports sid = none) :
    rget (stepEvent st ev).transports sid = none := by
  cases ev with
  | mcpRequest m sido i f =>
    show rget (handleMcp st m sido i f).2.transports sid = none
    cases sido with
    | some s =>
      rw [handleMcp_some_state]
      exact hg
    | none =>
      by_cases hc : m = Method.post ∧ i = true
      · cases f with
        | true =>
          rw [handleMcp_init_fail st m i hc]
          exact hg
        | false =>
          rw [handleMcp_init_success st m i hc]
          show rget (rset st.transports st.nextId
            ⟨TransportKind.streamable, st.nextId, some (st.nextId + 1)⟩)
            sid = none
          rw [rget_rset_ne _ _ _ _ (Nat.ne_of_lt hlt)]
          exact hg
      · rw [handleMcp_none_reject st m i f hc]
        exact hg
  | sseConnect f =>
    show rget (handleSse st f).2.transports sid = none
    cases f with
    | true =>
      show rget (rset st.transports st.nextId
        ⟨TransportKind.sse, st.nextId, none⟩) sid = none
      rw [rget_rset_ne _ _ _ _ (Nat.ne_of_lt hlt)]
      exact hg
    | false =>
      show rget (rset (rset st.transports st.nextId
        ⟨TransportKind.sse, st.nextId, none⟩) st.nextId
        ⟨TransportKind.sse, st.nextId, some (st.nextId + 1)⟩) sid = none
      rw [rset_rset_same, rget_rset_ne _ _ _ _ (Nat.ne_of_lt hlt)]
      exact hg
  | messagesPost sido f =>
    show rget (handleMessages st sido f).2.transports sid = none
    rw [handleMessages_state]
    exact hg
  | streamableClosed s =>
    show rget (streamableOnClose st s).transports sid = none
    unfold streamableOnClose
    cases hg2 : rget st.transports s with
    | none => exact hg
    | some e2 =>
      obtain ⟨ek, etid, esrv⟩ := e2
      cases ek with
      | sse => exact hg
      | streamable =>
        by_cases hs : sid = s
        · subst hs
          exact rget_rdelete_self _ _
        · show rget (rdelete st.transports s) sid = none
          rw [rget_rdelete_ne _ _ _ hs]
          exact hg
  | sseStreamClosed s =>
    show rget (sseOnResClose st s).transports sid = none
    unfold sseOnResClose
    cases hg2 : rget st.transports s with
    | none => exact hg
    | some e2 =>
      obtain ⟨ek, etid, esrv⟩ := e2
      cases ek with
      | streamable => exact hg
      | sse =>
        by_cases hs : sid = s
        · subst hs
          exact rget_rdelete_self _ _
        · show rget (rdelete st.transports s) sid = none
          rw [rget_rdelete_ne _ _ _ hs]
          exact hg

theorem wf_runEvents (st : ServerState) (L : List Event) (hwf : StateWF st) :
    StateWF (runEvents st L) := by
  induction L generalizing st with
  | nil => exact hwf
  | cons ev L ih => exact ih _ (wf_stepEvent st ev hwf)

theorem nextId_le_runEvents (st : ServerState) (L : List Event) :
    st.nextId ≤ (runEvents st L).nextId := by
  induction L generalizing st with
  | nil => exact le_refl _
  | cons ev L ih => exact le_trans (nextId_le_stepEvent st ev) (ih _)

theorem rget_runEvents_none (st : ServerState) (L : List Event)
    (sid : SessionId) (hlt : sid < st.nextId)
    (hg : rget st.transports sid = none) :
    rget (runEvents st L).transports sid = none := by
  induction L generalizing st with
  | nil => exact hg
  | cons ev L ih =>
    exact ih _ (lt_of_lt_of_le hlt (nextId_le_stepEvent st ev))
      (rget_stepEvent_none st ev sid hlt hg)

theorem rget_runEvents_preserved (st : ServerState) (L : List Event)
    (sid : SessionId) (e : TransportEntry) (hwf : StateWF st)
    (hg : rget st.transports sid = some e) :
    rget (runEvents st L).transports sid = some e ∨
    rget (runEvents st L).transports sid = none := by
  induction L generalizing st with
  | nil => exact Or.inl hg
  | cons ev L ih =>
    rcases rget_stepEvent_preserved st ev sid e hwf hg with h | h
    · exact ih _ (wf_stepEvent st ev hwf) h
    · right
      exact rget_runEvents_none _ L sid
        (lt_of_lt_of_le (rget_some_lt hwf hg) (nextId_le_stepEvent st ev)) h

/-! The shutdown loop. -/

theorem closeLoop_eq (l : List (SessionId × TransportEntry))
    (fails : SessionId → Bool) :
    closeLoop l fails
      = (l.map Prod.fst, (l.map Prod.fst).filter fails) := by
  induction l with
  | nil => rfl
  | cons hd tl ih =>
    obtain ⟨sid, v⟩ := hd
    by_cases hf : fails sid
    · simp [closeLoop, ih, List.filter_cons, hf]
    · simp [closeLoop, ih, List.filter_cons, hf]

/-- Evaluation of `sseOnResClose` when the id resolves to an SSE entry:
the registry entry is removed and the stream is released in the same step. -/
theorem sseOnResClose_found (st : ServerState) (sid : SessionId)
    (e : TransportEntry) (hg : rget st.transports sid = some e)
    (hk : e.kind = TransportKind.sse) :
    sseOnResClose st sid = { st with
      transports := rdelete st.transports sid,
      aliveStreams := st.aliveStreams.filter (fun x => x != sid) } := by
  obtain ⟨ek, etid, esrv⟩ := e
  change ek = TransportKind.sse at hk
  subst hk
  simp [sseOnResClose, hg]

/-- A sample state of the shape the server builds: one Streaming session
(id 0, bound server 1) and one legacy SSE session (id 2, bound server 3)
whose stream is open. -/
def stEx : ServerState :=
  ⟨[(0, ⟨TransportKind.streamable, 0, some 1⟩),
    (2, ⟨TransportKind.sse, 2, some 3⟩)], [2], 4⟩

/-- Sample server options with no allow-lists configured. -/
def optsEx : RemoteServerOptions := { orgName := "contoso" }

/-- C1: a Streaming initialization creates a session whose registry entry
carries the transport and bound server built at init; afterwards, any number
of events later, a request carrying that session id in the `mcp-session-id`
header is dispatched to that same transport and bound server, with the state
unchanged (initialization is not re-run), as long as the session is still
registered; the entry itself never changes for the session's lifetime. -/
theorem mcp_session_affinity (st : ServerState) (hwf : StateWF st) :
    (mcpInit st).1 = HttpResponse.ok st.nextId (some (st.nextId + 1)) ∧
    rget (mcpInit st).2.transports st.nextId
      = some ⟨TransportKind.streamable, st.nextId, some (st.nextId + 1)⟩ ∧
    ∀ L e2, rget (runEvents (mcpInit st).2 L).transports st.nextId = some e2 →
      e2 = ⟨TransportKind.streamable, st.nextId, some (st.nextId + 1)⟩ ∧
      ∀ m i, handleMcp (runEvents (mcpInit st).2 L) m (some st.nextId) i false
        = (HttpResponse.ok st.nextId (some (st.nextId + 1)),
           runEvents (mcpInit st).2 L) := by
  have hinit := handleMcp_init_success st Method.post true ⟨rfl, rfl⟩
  have hst1 : (mcpInit st).2 = { st with
      transports := rset st.transports st.nextId
        ⟨TransportKind.streamable, st.nextId, some (st.nextId + 1)⟩,
      nextId := st.nextId + 2 } := by
    rw [mcpInit, hinit]
  refine ⟨by rw [mcpInit, hinit], ?_, ?_⟩
  · rw [hst1]
    exact rget_rset_self _ _ _
  · intro L e2 h
    have hwf1 : StateWF (mcpInit st).2 := by
      rw [hst1]
      exact wf_insert_streamable st hwf
    have hg1 : rget (mcpInit st).2.transports st.nextId
        = some ⟨TransportKind.streamable, st.nextId, some (st.nextId + 1)⟩ := by
      rw [hst1]
      exact rget_rset_self _ _ _
    rcases rget_runEvents_preserved _ L _ _ hwf1 hg1 with hp | hp
    · have he2 := Option.some.inj (h.symm.trans hp)
      subst he2
      refine ⟨rfl, fun m i => ?_⟩
      exact handleMcp_found_streamable _ m st.nextId i _ h rfl
    · exact absurd (h.symm.trans hp) (Option.some_ne_none e2)

/-- C1 witness at the sample state. -/
theorem mcp_session_affinity_witness :
    (mcpInit stEx).1 = HttpResponse.ok stEx.nextId (some (stEx.nextId + 1)) ∧
    rget (mcpInit stEx).2.transports stEx.nextId
      = some ⟨TransportKind.streamable, stEx.nextId, some (stEx.nextId + 1)⟩ ∧
    ∀ L e2,
      rget (runEvents (mcpInit stEx).2 L).transports stEx.nextId = some e2 →
      e2 = ⟨TransportKind.streamable, stEx.nextId, some (stEx.nextId + 1)⟩ ∧
      ∀ m i, handleMcp (runEvents (mcpInit stEx).2 L) m (some stEx.nextId)
          i false
        = (HttpResponse.ok stEx.nextId (some (stEx.nextId + 1)),
           runEvents (mcpInit stEx).2 L) :=
  mcp_session_affinity stEx (by decide)

/-- C2 counterexample: the "no such session" rejection and the "wrong
transport" rejection of `POST /messages` carry the same JSON-RPC error code
-32000 (id 9 is unknown in `stEx`; id 0 is a Streaming session), so no
error code distinguishes the two categories. -/
theorem messages_error_code_not_distinguishing :
    respErrCode (handleMessages stEx (some 9) false).1
      = respErrCode (handleMessages stEx (some 0) false).1 ∧
    respErrCode (handleMessages stEx (some 9) false).1 = some (-32000) ∧
    rget stEx.transports 9 = none ∧
    rget stEx.transports 0 = some ⟨TransportKind.streamable, 0, some 1⟩ := by
  decide

/-- C2 amended: a `POST /messages?sessionId=x` where `x` belongs to a
Streaming session is rejected as wrong transport and an unknown id as no
such session, but both rejections carry the same code -32000 and are told
apart only by their message strings, which differ. -/
theorem messages_wrong_transport_amended (st : ServerState) (sid : SessionId)
    (e : TransportEntry) (hg : rget st.transports sid = some e)
    (hk : e.kind = TransportKind.streamable) :
    (∀ f, handleMessages st (some sid) f
        = (.err 400 (-32000) msgWrongTransport, st)) ∧
    (∀ sid2 f, rget st.transports sid2 = none →
        handleMessages st (some sid2) f
          = (.err 400 (-32000) msgNoTransport, st)) ∧
    msgWrongTransport ≠ msgNoTransport :=
  ⟨fun f => handleMessages_found_streamable st sid f e hg hk,
   fun sid2 f hg2 => handleMessages_not_found st sid2 f hg2,
   by decide⟩

/-- C2 amended witness at the sample state. -/
theorem messages_wrong_transport_amended_witness :
    (∀ f, handleMessages stEx (some 0) f
        = (.err 400 (-32000) msgWrongTransport, stEx)) ∧
    (∀ sid2 f, rget stEx.transports sid2 = none →
        handleMessages stEx (some sid2) f
          = (.err 400 (-32000) msgNoTransport, stEx)) ∧
    msgWrongTransport ≠ msgNoTransport :=
  messages_wrong_transport_amended stEx 0
    ⟨TransportKind.streamable, 0, some 1⟩ (by decide) rfl

/-- C3: once a session id has been removed from the registry, any `/mcp` or
`/messages` request referencing it is rejected, and after any further
sequence of events the id is still rejected: no event ever creates a new
session reusing a previously allocated id, so the stale id is never
silently revived. -/
theorem closed_session_never_revived (st : ServerState) (sid : SessionId)
    (hclosed : rget st.transports sid = none) (hold : sid < st.nextId) :
    (∀ m i f, handleMcp st m (some sid) i f
        = (.err 400 (-32000) msgNoValidSession, st)) ∧
    (∀ f, handleMessages st (some sid) f
        = (.err 400 (-32000) msgNoTransport, st)) ∧
    ∀ L, rget (runEvents st L).transports sid = none ∧
      (∀ m i f, handleMcp (runEvents st L) m (some sid) i f
          = (.err 400 (-32000) msgNoValidSession, runEvents st L)) ∧
      (∀ f, handleMessages (runEvents st L) (some sid) f
          = (.err 400 (-32000) msgNoTransport, runEvents st L)) := by
  refine ⟨fun m i f => handleMcp_not_found st m sid i f hclosed,
          fun f => handleMessages_not_found st sid f hclosed,
          fun L => ?_⟩
  have hnone := rget_runEvents_none st L sid hold hclosed
  exact ⟨hnone,
         fun m i f => handleMcp_not_found _ m sid i f hnone,
         fun f => handleMessages_not_found _ sid f hnone⟩

/-- C3 witness: id 1 was allocated before (it is below the counter) and is
not registered in the sample state. -/
theorem closed_session_never_revived_witness :
    (∀ m i f, handleMcp stEx m (some 1) i f
        = (.err 400 (-32000) msgNoValidSession, stEx)) ∧
    (∀ f, handleMessages stEx (some 1) f
        = (.err 400 (-32000) msgNoTransport, stEx)) ∧
    ∀ L, rget (runEvents stEx L).transports 1 = none ∧
      (∀ m i f, handleMcp (runEvents stEx L) m (some 1) i f
          = (.err 400 (-32000) msgNoValidSession, runEvents stEx L)) ∧
      (∀ f, handleMessages (runEvents stEx L) (some 1) f
          = (.err 400 (-32000) msgNoTransport, runEvents stEx L)) :=
  closed_session_never_revived stEx 1 (by decide) (by decide)

/-- C4: every routing rejection (wrong transport kind for the id, unknown id,
missing id on a non-initialization `/mcp` request, missing `sessionId` query
parameter) returns a client error with the whole state — in particular the
session registry — unchanged. -/
theorem rejected_requests_no_mutation (st : ServerState) :
    (∀ m sid i f e, rget st.transports sid = some e →
        e.kind = TransportKind.sse →
        handleMcp st m (some sid) i f
          = (.err 400 (-32000) msgWrongTransport, st)) ∧
    (∀ m sid i f, rget st.transports sid = none →
        handleMcp st m (some sid) i f
          = (.err 400 (-32000) msgNoValidSession, st)) ∧
    (∀ m i f, ¬(m = Method.post ∧ i = true) →
        handleMcp st m none i f
          = (.err 400 (-32000) msgNoValidSession, st)) ∧
    (∀ f, handleMessages st none f
        = (.err 400 (-32000) msgMissingSessionId, st)) ∧
    (∀ sid f, rget st.transports sid = none →
        handleMessages st (some sid) f
          = (.err 400 (-32000) msgNoTransport, st)) ∧
    (∀ sid f e, rget st.transports sid = some e →
        e.kind = TransportKind.streamable →
        handleMessages st (some sid) f
          = (.err 400 (-32000) msgWrongTransport, st)) :=
  ⟨fun m sid i f e hg hk => handleMcp_found_sse st m sid i f e hg hk,
   fun m sid i f hg => handleMcp_not_found st m sid i f hg,
   fun m i f hc => handleMcp_none_reject st m i f hc,
   fun _ => rfl,
   fun sid f hg => handleMessages_not_found st sid f hg,
   fun sid f e hg hk => handleMessages_found_streamable st sid f e hg hk⟩

/-- C4 witness: one concrete instance of each rejection at the sample
state. -/
theorem rejected_requests_no_mutation_witness :
    handleMcp stEx Method.post (some 2) true false
      = (.err 400 (-32000) msgWrongTransport, stEx) ∧
    handleMcp stEx Method.get (some 7) false false
      = (.err 400 (-32000) msgNoValidSession, stEx) ∧
    handleMcp stEx Method.get none false false
      = (.err 400 (-32000) msgNoValidSession, stEx) ∧
    handleMessages stEx none false
      = (.err 400 (-32000) msgMissingSessionId, stEx) ∧
    handleMessages stEx (some 7) false
      = (.err 400 (-32000) msgNoTransport, stEx) ∧
    handleMessages stEx (some 0) false
      = (.err 400 (-32000) msgWrongTransport, stEx) :=
  ⟨(rejected_requests_no_mutation stEx).1 Method.post 2 true false
      ⟨TransportKind.sse, 2, some 3⟩ (by decide) rfl,
   (rejected_requests_no_mutation stEx).2.1 Method.get 7 false false
      (by decide),
   (rejected_requests_no_mutation stEx).2.2.1 Method.get false false
      (by decide),
   (rejected_requests_no_mutation stEx).2.2.2.1 false,
   (rejected_requests_no_mutation stEx).2.2.2.2.1 7 false (by decide),
   (rejected_requests_no_mutation stEx).2.2.2.2.2 0 false
      ⟨TransportKind.streamable, 0, some 1⟩ (by decide) rfl⟩

/-- C5: `stop` attempts to close every registered session in order even when
some closes throw (errors are collected or logged, never propagated), and
leaves zero registry entries: the attempted list is all session ids
regardless of which closes fail, the failed list is exactly the failing
ones, and the final registry is empty. -/
theorem stop_closes_all (st : ServerState) (fails : SessionId → Bool) :
    (stopServer st fails).1.transports = [] ∧
    (stopServer st fails).2.1 = st.transports.map Prod.fst ∧
    (stopServer st fails).2.2
      = (st.transports.map Prod.fst).filter fails := by
  have h := closeLoop_eq st.transports fails
  refine ⟨rfl, ?_, ?_⟩
  · show (closeLoop st.transports fails).1 = _
    rw [h]
  · show (closeLoop st.transports fails).2 = _
    rw [h]

/-- C6: every `GET /sse` creates a brand-new session: the id is generated at
transport construction (it is the fresh counter value, unregistered in the
pre-state, so no legacy session is ever resumed), the registry entry is
inserted before the bound server exists (`serverId = none` — the window with
no attached handler), and only afterwards is the bound server created and
attached; the handler is exactly this register-then-attach sequence. -/
theorem sse_register_before_attach (st : ServerState) (hwf : StateWF st) :
    (sseRegister st).1 = st.nextId ∧
    rget st.transports (sseRegister st).1 = none ∧
    rget (sseRegister st).2.transports (sseRegister st).1
      = some ⟨TransportKind.sse, st.nextId, none⟩ ∧
    rget (sseAttach (sseRegister st).2 (sseRegister st).1).transports
        (sseRegister st).1
      = some ⟨TransportKind.sse, st.nextId, some (st.nextId + 1)⟩ ∧
    handleSse st false
      = (.ok st.nextId none, sseAttach (sseRegister st).2 (sseRegister st).1)
    := by
  refine ⟨rfl, rget_nextId_eq_none hwf, ?_, ?_, rfl⟩
  · show rget (rset st.transports st.nextId
      ⟨TransportKind.sse, st.nextId, none⟩) st.nextId
      = some ⟨TransportKind.sse, st.nextId, none⟩
    exact rget_rset_self _ _ _
  · show rget (rset (rset st.transports st.nextId
        ⟨TransportKind.sse, st.nextId, none⟩) st.nextId
        ⟨TransportKind.sse, st.nextId, some (st.nextId + 1)⟩) st.nextId
      = some ⟨TransportKind.sse, st.nextId, some (st.nextId + 1)⟩
    rw [rset_rset_same]
    exact rget_rset_self _ _ _

/-- C6 witness at the sample state. -/
theorem sse_register_before_attach_witness :
    (sseRegister stEx).1 = stEx.nextId ∧
    rget stEx.transports (sseRegister stEx).1 = none ∧
    rget (sseRegister stEx).2.transports (sseRegister stEx).1
      = some ⟨TransportKind.sse, stEx.nextId, none⟩ ∧
    rget (sseAttach (sseRegister stEx).2 (sseRegister stEx).1).transports
        (sseRegister stEx).1
      = some ⟨TransportKind.sse, stEx.nextId, some (stEx.nextId + 1)⟩ ∧
    handleSse stEx false
      = (.ok stEx.nextId none,
         sseAttach (sseRegister stEx).2 (sseRegister stEx).1) :=
  sse_register_before_attach stEx (by decide)

/-- C7: in any state reachable from a well-formed state, a `POST /messages`
that is dispatched (not rejected) finds a session whose stream is still
open — a POST never finds a registry entry whose stream is already gone —
and the stream-close event removes the registry entry and the open stream
in one atomic step of the event loop. -/
theorem sse_close_atomic_with_deregister (st : ServerState)
    (hwf : StateWF st) (L : List Event) :
    (∀ sid f t sv,
        (handleMessages (runEvents st L) (some sid) f).1
          = HttpResponse.ok t sv →
        sid ∈ (runEvents st L).aliveStreams) ∧
    (∀ sid e, rget (runEvents st L).transports sid = some e →
        e.kind = TransportKind.sse →
        rget (sseOnResClose (runEvents st L) sid).transports sid = none ∧
        sid ∉ (sseOnResClose (runEvents st L) sid).aliveStreams) := by
  have hwfL := wf_runEvents st L hwf
  constructor
  · intro sid f t sv h
    obtain ⟨s, e, hs, hg, hk⟩ := handleMessages_ok_sse _ _ _ _ _ h
    obtain rfl : sid = s := Option.some.inj hs
    exact hwfL.2.2 (sid, e) (mem_of_rget _ _ _ hg) hk
  · intro sid e hg hk
    rw [sseOnResClose_found _ sid e hg hk]
    refine ⟨rget_rdelete_self _ _, fun hmem => ?_⟩
    have := (List.mem_filter.mp hmem).2
    simp at this

/-- C7 witness at the sample state, after one further event. -/
theorem sse_close_atomic_with_deregister_witness :
    (∀ sid f t sv,
        (handleMessages (runEvents stEx [Event.sseConnect false])
          (some sid) f).1 = HttpResponse.ok t sv →
        sid ∈ (runEvents stEx [Event.sseConnect false]).aliveStreams) ∧
    (∀ sid e,
        rget (runEvents stEx [Event.sseConnect false]).transports sid
          = some e →
        e.kind = TransportKind.sse →
        rget (sseOnResClose (runEvents stEx [Event.sseConnect false])
            sid).transports sid = none ∧
        sid ∉ (sseOnResClose (runEvents stEx [Event.sseConnect false])
            sid).aliveStreams) :=
  sse_close_atomic_with_deregister stEx (by decide) [Event.sseConnect false]

/-- C8: in any state reachable from a well-formed state, distinct sessions
have distinct bound server instances: the factory's per-session instances
are never shared across registry entries. -/
theorem bound_servers_distinct (st : ServerState) (hwf : StateWF st)
    (L : List Event) :
    ∀ p q, p ∈ (runEvents st L).transports →
      q ∈ (runEvents st L).transports → p.1 ≠ q.1 →
      ∀ a b, p.2.serverId = some a → q.2.serverId = some b → a ≠ b := by
  intro p q hp hq hne a b ha hb
  have hd := (wf_runEvents st L hwf).2.1 p hp q hq hne
  rw [ha, hb] at hd
  exact hd

/-- The sample event sequence for the C8 witness: one Streaming init and
one legacy SSE connect. -/
def eventsEx : List Event :=
  [Event.mcpRequest Method.post none true false, Event.sseConnect false]

/-- C8 witness: after the sample events, the two freshly created sessions
are both registered and their bound servers are distinct. -/
theorem bound_servers_distinct_witness :
    ((4 : SessionId), (⟨TransportKind.streamable, 4, some 5⟩ : TransportEntry))
      ∈ (runEvents stEx eventsEx).transports ∧
    ((6 : SessionId), (⟨TransportKind.sse, 6, some 7⟩ : TransportEntry))
      ∈ (runEvents stEx eventsEx).transports ∧
    (5 : Nat) ≠ 7 :=
  ⟨by decide, by decide,
   bound_servers_distinct stEx (by decide) eventsEx
     (4, ⟨TransportKind.streamable, 4, some 5⟩)
     (6, ⟨TransportKind.sse, 6, some 7⟩)
     (by decide) (by decide) (by decide) 5 7 rfl rfl⟩

/-- C9: a Streaming initialization whose awaited operations throw before
`onsessioninitialized` fires is answered by the catch branch with an
internal error and leaves the registry exactly as it was: a failed
initialization never leaves an orphan registry entry. -/
theorem failed_init_no_orphan (st : ServerState) :
    handleMcp st Method.post none true true
      = (.err 500 (-32603) msgInternal, st) ∧
    (handleMcp st Method.post none true true).2.transports
      = st.transports :=
  ⟨handleMcp_init_fail st Method.post true ⟨rfl, rfl⟩, by
    rw [handleMcp_init_fail st Method.post true ⟨rfl, rfl⟩]⟩

/-- C10: the legacy transport's DNS-rebinding protection flag is set if and
only if an `allowedHosts` or `allowedOrigins` list is configured; with
neither configured, the transport accepts every caller without a host or
origin check. -/
theorem dns_rebinding_iff_configured (o : RemoteServerOptions) :
    (enableDnsRebindingProtection o = true ↔
      (o.allowedHosts ≠ none ∨ o.allowedOrigins ≠ none)) ∧
    (o.allowedHosts = none → o.allowedOrigins = none →
      ∀ h og, sseAcceptsRequest o h og = true) := by
  refine ⟨?_, ?_⟩
  · simp [enableDnsRebindingProtection, Option.isSome_iff_ne_none]
  · intro hh hoo h og
    simp [sseAcceptsRequest, enableDnsRebindingProtection, hh, hoo]

/-- C10 witness at the sample options (no allow-lists configured). -/
theorem dns_rebinding_iff_configured_witness :
    (enableDnsRebindingProtection optsEx = true ↔
      (optsEx.allowedHosts ≠ none ∨ optsEx.allowedOrigins ≠ none)) ∧
    (optsEx.allowedHosts = none → optsEx.allowedOrigins = none →
      ∀ h og, sseAcceptsRequest optsEx h og = true) :=
  dns_rebinding_iff_configured optsEx

end ADOMcp
